import Mathlib

/-!
Shallow embedding of the DC-motor training-station control core
(src/anfis_controller.py, src/hardware_controller.py, src/main_controller.py).
Machine floats are modelled as exact rationals; the pseudo-random noise of the
simulator and the derivative of the controller are explicit parameters.
-/

namespace DCMotor

/-- Model of numpy clip: np.clip(x, lo, hi) = min(hi, max(x, lo)). -/
def np_clip (x lo hi : ℚ) : ℚ := min (max x lo) hi

/-- The fixed epsilon 1e-10 added to the firing-strength sum before the
normalizing division (anfis_controller.py line 166). -/
def eps : ℚ := 1 / 10 ^ 10

/-- Triangular membership-set parameters (a, b, c) as stored in the
configuration ranges. -/
structure TriMF where
  a : ℚ
  b : ℚ
  c : ℚ
deriving DecidableEq, Repr

/-- ANFISController.membership_function for mf_type == trimf
(anfis_controller.py lines 102-109): the if / elif / else chain
returning 0 outside the closed feet, the linear rise on (a, b] and the
linear fall on the remaining region. -/
def membership_function (x a b c : ℚ) : ℚ :=
  if x ≤ a ∨ c ≤ x then 0
  else if a < x ∧ x ≤ b then (x - a) / (b - a)
  else (c - x) / (c - b)

/-- Membership grade of an input against one triangular set. -/
def memGrade (x : ℚ) (s : TriMF) : ℚ := membership_function x s.a s.b s.c

/-- ANFISController.calculate_rule_firing_strengths
(anfis_controller.py lines 113-143): grade lists for both inputs are built
by mapping the membership function over the configured ranges, then the
double loop for i in range(num_mf), for j in range(num_mf) fills the
strength array with min(error_grades[i], delta_grades[j]) in row-major
rule order. -/
def calculate_rule_firing_strengths (num_mf : ℕ) (errRanges deltaRanges : List TriMF)
    (error delta_error : ℚ) : List ℚ :=
  let eg := errRanges.map (memGrade error)
  let dg := deltaRanges.map (memGrade delta_error)
  (List.range num_mf).flatMap fun i =>
    (List.range num_mf).map fun j => min (eg.getD i 0) (dg.getD j 0)

/-- Normalization step of calculate_control (anfis_controller.py lines
165-167): each strength divided by the sum of all strengths plus eps. -/
def normalize_firing (fs : List ℚ) : List ℚ :=
  fs.map fun s => s / (fs.sum + eps)

/-- One row of the consequent parameter matrix: (bias, error coefficient,
delta-error coefficient), matching np.dot(row, [1, error, delta_error]). -/
structure ConsequentRow where
  p0 : ℚ
  p1 : ℚ
  p2 : ℚ
deriving DecidableEq, Repr

/-- Static ANFIS configuration (anfis_config.json as read by
_load_config and the structure/training fields consumed in
anfis_controller.py lines 62-90). -/
structure AnfisConfig where
  num_mf : ℕ
  errRanges : List TriMF
  deltaRanges : List TriMF
  learning_rate : ℚ
  momentum : ℚ
  error_goal : ℚ
  training_epochs : ℕ
deriving DecidableEq, Repr

/-- Mutable controller state: the consequent matrix (re-seeded randomly at
construction, so modelled as an arbitrary value), the optional last_error
attribute (absent before the first calculate_control call), the epoch
counter and the trained flag. -/
structure AnfisState where
  consequent_params : List ConsequentRow
  last_error : Option ℚ
  training_epoch : ℕ
  is_trained : Bool
deriving DecidableEq, Repr

/-- Shape conditions under which the body of calculate_control runs without
raising: both grade lists are long enough for the index loop, and the
consequent matrix has num_rules = num_mf ^ 2 rows so the elementwise
product with the normalized strengths is well-formed.  When these fail the
Python code raises inside the try block and the except path returns 0.0. -/
def shapes_ok (cfg : AnfisConfig) (cons : List ConsequentRow) : Bool :=
  decide (cfg.num_mf ≤ cfg.errRanges.length) &&
  decide (cfg.num_mf ≤ cfg.deltaRanges.length) &&
  decide (cons.length = cfg.num_mf ^ 2)

/-- Per-rule first-order Sugeno consequent outputs
(anfis_controller.py lines 170-171): np.dot(consequent_params, [1, e, de]). -/
def rule_outputs (cons : List ConsequentRow) (e de : ℚ) : List ℚ :=
  cons.map fun r => r.p0 + r.p1 * e + r.p2 * de

/-- The fuzzy pipeline of calculate_control at a given (error, delta_error)
pair (anfis_controller.py lines 162-179): firing strengths, epsilon
normalization, consequent outputs, weighted sum, final clamp to
[-100, 100]; the except path (shape failure) yields 0.0. -/
def calculate_control_at (cfg : AnfisConfig) (cons : List ConsequentRow)
    (error delta_error : ℚ) : ℚ :=
  if shapes_ok cfg cons then
    let fs := calculate_rule_firing_strengths cfg.num_mf cfg.errRanges cfg.deltaRanges
      error delta_error
    let nf := normalize_firing fs
    let control := (List.zipWith (fun w r => w * r) nf (rule_outputs cons error delta_error)).sum
    np_clip control (-100) 100
  else 0

/-- ANFISController.calculate_control (anfis_controller.py lines 145-183):
delta_error is derived from the stored last_error (initialized to the
current error on the first call) divided by the 0.01 s sample time;
last_error is updated before the fuzzy pipeline runs, so it is updated on
the except path as well. -/
def calculate_control (cfg : AnfisConfig) (st : AnfisState) (error : ℚ) :
    ℚ × AnfisState :=
  let last := st.last_error.getD error
  let delta_error := (error - last) / (1 / 100)
  let st' := { st with last_error := some error }
  (calculate_control_at cfg st'.consequent_params error delta_error, st')

/-- A training sample (error, delta_error, target_output). -/
structure Sample where
  error : ℚ
  delta_error : ℚ
  target : ℚ
deriving DecidableEq, Repr

/-- One epoch of ANFISController.train (anfis_controller.py lines 194-211):
fold over the samples in order, calling calculate_control on the error field of each sample (threading the controller state) and accumulating the squared
difference from the target; then divide by the sample count and increment
the epoch counter.  The consequent parameters are never written. -/
def train_epoch (cfg : AnfisConfig) (st : AnfisState) (data : List Sample) :
    ℚ × AnfisState :=
  let acc := data.foldl
    (fun p s =>
      let r := calculate_control cfg p.2 s.error
      (p.1 + (s.target - r.1) ^ 2, r.2))
    ((0 : ℚ), st)
  (acc.1 / (data.length : ℚ), { acc.2 with training_epoch := acc.2.training_epoch + 1 })

/-- Result of a training run: epochs actually executed, the last-epoch
mean squared error, whether the error-goal break fired, and the final
controller state. -/
structure TrainResult where
  epochsRun : ℕ
  finalError : ℚ
  converged : Bool
  state : AnfisState
deriving DecidableEq, Repr

/-- Epoch loop of train (anfis_controller.py lines 194-215): run up to the
given number of epochs, breaking as soon as the epoch mean squared error
is below the error goal. -/
def train_go (cfg : AnfisConfig) (goal : ℚ) (data : List Sample) :
    ℕ → AnfisState → ℕ → ℚ → TrainResult
  | 0, st, count, lastE => ⟨count, lastE, false, st⟩
  | Nat.succ n, st, count, _ =>
    let r := train_epoch cfg st data
    if r.1 < goal then ⟨count + 1, r.1, true, r.2⟩
    else train_go cfg goal data n r.2 (count + 1) r.1

/-- ANFISController.train (anfis_controller.py lines 185-220): the epoch
loop followed by setting is_trained. -/
def train (cfg : AnfisConfig) (st : AnfisState) (data : List Sample) : TrainResult :=
  let r := train_go cfg cfg.error_goal data cfg.training_epochs st 0 0
  ⟨r.epochsRun, r.finalError, r.converged, { r.state with is_trained := true }⟩

/-- Spec-modelled comparison definition, following the claim wording for the
training forward pass: the controller output is computed for the (error, delta_error) pair stored in each sample, with the consequent matrix fixed, and the
epoch error is the mean of the squared differences from the targets. -/
def train_epoch_samplePair (cfg : AnfisConfig) (cons : List ConsequentRow)
    (data : List Sample) : ℚ :=
  (data.map fun s => (s.target - calculate_control_at cfg cons s.error s.delta_error) ^ 2).sum
    / (data.length : ℚ)

/-- Simulation coefficients set up in HardwareController (hardware_controller.py
lines 123-139). -/
structure SimParams where
  motor_inertia : ℚ
  motor_damping : ℚ
  motor_torque_constant : ℚ
  load_torque : ℚ
  base_current : ℚ
  max_speed : ℚ
deriving DecidableEq, Repr

/-- The concrete sim_params dictionary of _initialize_simulation. -/
def simParamsDefault : SimParams :=
  { motor_inertia := 1 / 100
    motor_damping := 1 / 10
    motor_torque_constant := 1 / 100
    load_torque := 1 / 10
    base_current := 1 / 5
    max_speed := 1750 }

/-- Motor speed-range bounds from hardware_config.json consumed by
set_target_speed (hardware_controller.py lines 212-214). -/
structure HwConfig where
  min_speed_rpm : ℚ
  max_speed_rpm : ℚ
deriving DecidableEq, Repr

/-- HardwareController._update_simulation (hardware_controller.py lines
156-190) on (speed, current): acceleration from the first-order motor
model, speed integrated over the wall-clock dt, clipped to
[0, max_speed], perturbed by the sampled noise, floored at 0; then the
current draw recomputed from the new speed, perturbed, floored at 0.
The two np.random.normal samples are explicit arguments. -/
def update_simulation (p : SimParams) (speed duty_cycle : ℚ)
    (dt noise cnoise : ℚ) : ℚ × ℚ :=
  let motor_input := duty_cycle / 100
  let acceleration :=
    (motor_input * p.motor_torque_constant * p.max_speed -
      p.motor_damping * speed - p.load_torque) / p.motor_inertia
  let v1 := speed + acceleration * dt
  let v2 := np_clip v1 0 p.max_speed
  let v3 := v2 + noise
  let v4 := max 0 v3
  let cur := p.base_current + |motor_input| * 2 + v4 / p.max_speed * 3 + cnoise
  (v4, max 0 cur)

/-- Control mode of MainController: manual or anfis. -/
inductive Mode where
  | manual
  | anfis
deriving DecidableEq, Repr

/-- Combined state of MainController and its HardwareController in
simulation mode, together with the embedded ANFIS controller state. -/
structure SysState where
  mc_running : Bool
  control_mode : Mode
  mc_target_speed : ℚ
  hw_running : Bool
  emergency_stop_active : Bool
  duty_cycle : ℚ
  hw_target_speed : ℚ
  current_speed : ℚ
  current_current : ℚ
  anfis : AnfisState
deriving DecidableEq, Repr

/-- HardwareController.set_duty_cycle (lines 223-244): clip to [-100, 100]
and store. -/
def hw_set_duty_cycle (s : SysState) (d : ℚ) : SysState :=
  { s with duty_cycle := np_clip d (-100) 100 }

/-- HardwareController.set_target_speed (lines 208-217): clip to the
configured [min_speed_rpm, max_speed_rpm] range and store. -/
def hw_set_target_speed (hcfg : HwConfig) (s : SysState) (v : ℚ) : SysState :=
  { s with hw_target_speed := np_clip v hcfg.min_speed_rpm hcfg.max_speed_rpm }

/-- HardwareController.start (lines 260-264): sets running and clears the
emergency-stop flag. -/
def hw_start (s : SysState) : SysState :=
  { s with hw_running := true, emergency_stop_active := false }

/-- HardwareController.stop (lines 266-270): clear running, command zero
duty cycle. -/
def hw_stop (s : SysState) : SysState :=
  hw_set_duty_cycle { s with hw_running := false } 0

/-- HardwareController.emergency_stop (lines 272-277): latch the
emergency-stop flag, clear running, command zero duty cycle.  Also the
target of the external stop-signal path (_emergency_stop_callback). -/
def hw_emergency_stop (s : SysState) : SysState :=
  hw_set_duty_cycle { s with emergency_stop_active := true, hw_running := false } 0

/-- HardwareController.reset_emergency_stop (lines 279-285) in simulation
mode: always clears the flag and returns True. -/
def hw_reset_emergency_stop (s : SysState) : Bool × SysState :=
  (true, { s with emergency_stop_active := false })

/-- MainController.start (lines 57-67): set the loop flag and start the
hardware. -/
def mc_start (s : SysState) : SysState :=
  hw_start { s with mc_running := true }

/-- MainController.stop (lines 73-77). -/
def mc_stop (s : SysState) : SysState :=
  hw_stop { s with mc_running := false }

/-- MainController.emergency_stop (lines 150-154): stop() then
hardware.emergency_stop(). -/
def mc_emergency_stop (s : SysState) : SysState :=
  hw_emergency_stop (mc_stop s)

/-- MainController.set_target_speed (lines 133-140): stores the raw value,
no clamping at this level. -/
def mc_set_target_speed (s : SysState) (v : ℚ) : SysState :=
  { s with mc_target_speed := v }

/-- MainController.set_control_mode (lines 142-148) for a valid mode. -/
def mc_set_control_mode (s : SysState) (m : Mode) : SysState :=
  { s with control_mode := m }

/-- One iteration of MainController._control_loop (lines 79-111): runs only
while mc_running; in anfis mode computes error = target - speed, calls the
ANFIS controller and writes its output to the duty-cycle sink
(_anfis_control, lines 118-128); in manual mode the duty cycle is left
unchanged (_manual_control).  No safety-state check appears anywhere in
the loop body. -/
def control_tick (acfg : AnfisConfig) (s : SysState) : SysState :=
  if s.mc_running then
    match s.control_mode with
    | Mode.anfis =>
      let error := s.mc_target_speed - s.current_speed
      let r := calculate_control acfg s.anfis error
      hw_set_duty_cycle { s with anfis := r.2 } r.1
    | Mode.manual => s
  else s

/-- One iteration of HardwareController._monitoring_loop (lines 146-154):
the simulation state advances only when running and not emergency
stopped. -/
def monitor_tick (p : SimParams) (s : SysState) (dt noise cnoise : ℚ) : SysState :=
  if s.hw_running && !s.emergency_stop_active then
    let r := update_simulation p s.current_speed s.duty_cycle dt noise cnoise
    { s with current_speed := r.1, current_current := r.2 }
  else s

/-- The control-path operations of the system: the public command surface
of MainController, the hardware-level emergency-stop path (external stop
signal callback), direct hardware commands, and the two periodic loop
bodies. -/
inductive Op where
  | start
  | stop
  | emergencyStop
  | resetEmergencyStop
  | hwEmergencyStop
  | setTargetSpeed (v : ℚ)
  | hwSetTargetSpeed (v : ℚ)
  | setDutyCycle (v : ℚ)
  | setControlMode (m : Mode)
  | controlTick
  | monitorTick (dt noise cnoise : ℚ)
deriving DecidableEq

/-- Small-step semantics of one operation on the combined system state. -/
def step (acfg : AnfisConfig) (hcfg : HwConfig) (p : SimParams) :
    Op → SysState → SysState
  | Op.start, s => mc_start s
  | Op.stop, s => mc_stop s
  | Op.emergencyStop, s => mc_emergency_stop s
  | Op.resetEmergencyStop, s => (hw_reset_emergency_stop s).2
  | Op.hwEmergencyStop, s => hw_emergency_stop s
  | Op.setTargetSpeed v, s => mc_set_target_speed s v
  | Op.hwSetTargetSpeed v, s => hw_set_target_speed hcfg s v
  | Op.setDutyCycle v, s => hw_set_duty_cycle s v
  | Op.setControlMode m, s => mc_set_control_mode s m
  | Op.controlTick, s => control_tick acfg s
  | Op.monitorTick dt noise cnoise, s => monitor_tick p s dt noise cnoise

/-! ## Concrete instances used by counterexamples and witnesses -/

/-- The three-set triangular configuration from the specification example:
(-100,-100,0), (-50,0,50), (0,100,100). -/
def ranges3 : List TriMF := [⟨-100, -100, 0⟩, ⟨-50, 0, 50⟩, ⟨0, 100, 100⟩]

/-- A one-rule configuration whose single consequent row is the constant 50. -/
def cfgA : AnfisConfig :=
  { num_mf := 1
    errRanges := [⟨-100, 0, 100⟩]
    deltaRanges := [⟨-100, 0, 100⟩]
    learning_rate := 1 / 100
    momentum := 9 / 10
    error_goal := 1 / 1000
    training_epochs := 5 }

/-- Controller state matching cfgA before any call. -/
def anfisA : AnfisState :=
  { consequent_params := [⟨50, 0, 0⟩]
    last_error := none
    training_epoch := 0
    is_trained := false }

/-- A controller state whose consequent matrix has the wrong number of rows
for cfgA, triggering the except path of calculate_control. -/
def stBad : AnfisState :=
  { consequent_params := []
    last_error := none
    training_epoch := 0
    is_trained := false }

/-- Hardware speed bounds: a motor configured for [0, 1750] RPM. -/
def hcfg0 : HwConfig := { min_speed_rpm := 0, max_speed_rpm := 1750 }

/-- The freshly constructed system: nothing running, everything zeroed,
simulation current at the no-load value. -/
def sysInit : SysState :=
  { mc_running := false
    control_mode := Mode.manual
    mc_target_speed := 0
    hw_running := false
    emergency_stop_active := false
    duty_cycle := 0
    hw_target_speed := 0
    current_speed := 0
    current_current := 1 / 5
    anfis := anfisA }

/-- A state reached by starting the system and then calling the
MainController emergency stop: the latch is set. -/
def estopStateC : SysState := mc_emergency_stop (mc_start sysInit)

/-- A running adaptive-mode system with a target of 10 RPM. -/
def s_run : SysState :=
  mc_set_target_speed (mc_set_control_mode (mc_start sysInit) Mode.anfis) 10

/-- The running system after the hardware-level emergency stop (the
external stop-signal path): latched, hardware stopped, but the
MainController loop flag is still set. -/
def s_es : SysState := hw_emergency_stop s_run

/-- State obtained by start, set_duty_cycle(100), then a monitoring tick
with dt = 10 s and speed-noise sample +1. -/
def c4state : SysState :=
  step cfgA hcfg0 simParamsDefault (Op.monitorTick 10 1 0)
    (step cfgA hcfg0 simParamsDefault (Op.setDutyCycle 100)
      (step cfgA hcfg0 simParamsDefault Op.start sysInit))

/-- A one-rule configuration whose consequent row depends only on
delta_error (bias 0, error coefficient 0, delta coefficient 1). -/
def cfg9 : AnfisConfig :=
  { num_mf := 1
    errRanges := [⟨-1, 0, 1⟩]
    deltaRanges := [⟨-1, 0, 1⟩]
    learning_rate := 1 / 100
    momentum := 9 / 10
    error_goal := 1
    training_epochs := 5 }

/-- Controller state matching cfg9 before any call. -/
def st9 : AnfisState :=
  { consequent_params := [⟨0, 0, 1⟩]
    last_error := none
    training_epoch := 0
    is_trained := false }

/-- One training sample whose delta_error field (1/2) differs from the
delta the controller derives internally (0). -/
def data9 : List Sample := [⟨0, 1 / 2, 0⟩]

/-! ## Shared helper lemmas -/

/-- The upper clamp bound of np_clip. -/
lemma np_clip_le_hi (x lo hi : ℚ) : np_clip x lo hi ≤ hi := min_le_right _ _

/-- The lower clamp bound of np_clip, for a nonempty range. -/
lemma lo_le_np_clip (x lo hi : ℚ) (h : lo ≤ hi) : lo ≤ np_clip x lo hi :=
  le_min (le_max_right _ _) h

/-- Membership grades are nonnegative for arbitrary (a, b, c) parameters:
every branch of the source function returns a nonnegative value. -/
lemma membership_function_nonneg (x a b c : ℚ) : 0 ≤ membership_function x a b c := by
  unfold membership_function
  split_ifs with h1 h2
  · exact le_refl 0
  · obtain ⟨hax, hxb⟩ := h2
    apply div_nonneg <;> linarith
  · push_neg at h1 h2
    obtain ⟨hax, hxc⟩ := h1
    have hbx : b < x := h2 hax
    apply div_nonneg <;> linarith

/-- Membership grades never exceed 1 for arbitrary (a, b, c) parameters. -/
lemma membership_function_le_one (x a b c : ℚ) : membership_function x a b c ≤ 1 := by
  unfold membership_function
  split_ifs with h1 h2
  · exact zero_le_one
  · obtain ⟨hax, hxb⟩ := h2
    rw [div_le_one (by linarith)]
    linarith
  · push_neg at h1 h2
    obtain ⟨hax, hxc⟩ := h1
    have hbx : b < x := h2 hax
    rw [div_le_one (by linarith)]
    linarith

/-- Reading a grade list with default 0 stays within [0, 1]. -/
lemma grade_getD_bounds (x : ℚ) (rs : List TriMF) (i : ℕ) :
    0 ≤ (rs.map (memGrade x)).getD i 0 ∧ (rs.map (memGrade x)).getD i 0 ≤ 1 := by
  induction rs generalizing i with
  | nil => simp
  | cons r t ih =>
    cases i with
    | zero =>
      simp only [List.map_cons, List.getD_cons_zero]
      exact ⟨membership_function_nonneg _ _ _ _, membership_function_le_one _ _ _ _⟩
    | succ n =>
      simp only [List.map_cons, List.getD_cons_succ]
      exact ih n

/-- Every rule firing strength lies in [0, 1]. -/
lemma firing_strength_mem_bounds (m : ℕ) (er dr : List TriMF) (e de : ℚ) :
    ∀ y ∈ calculate_rule_firing_strengths m er dr e de, 0 ≤ y ∧ y ≤ 1 := by
  intro y hy
  unfold calculate_rule_firing_strengths at hy
  simp only [List.mem_flatMap, List.mem_map, List.mem_range] at hy
  obtain ⟨i, _, j, _, rfl⟩ := hy
  constructor
  · exact le_min (grade_getD_bounds e er i).1 (grade_getD_bounds de dr j).1
  · exact le_trans (min_le_left _ _) (grade_getD_bounds e er i).2

/-- The sum of a mapped division is the divided sum. -/
lemma sum_map_div (l : List ℚ) (d : ℚ) : (l.map fun s => s / d).sum = l.sum / d := by
  induction l with
  | nil => simp
  | cons x xs ih => simp [ih, add_div]

/-- The epsilon constant is positive. -/
lemma eps_pos : 0 < eps := by unfold eps; norm_num

/-- Behaviour of the epsilon normalization on any list of nonnegative
strengths: every normalized entry lies in [0, 1), the normalized sum equals
S / (S + eps), is nonnegative, is strictly below 1, and is positive exactly
when some strength is positive. -/
lemma normalize_firing_bounds (fs : List ℚ) (h : ∀ y ∈ fs, 0 ≤ y) :
    (∀ y ∈ normalize_firing fs, 0 ≤ y ∧ y < 1) ∧
    (normalize_firing fs).sum = fs.sum / (fs.sum + eps) ∧
    0 ≤ (normalize_firing fs).sum ∧
    (normalize_firing fs).sum < 1 ∧
    (0 < fs.sum → 0 < (normalize_firing fs).sum) := by
  have hS : 0 ≤ fs.sum := List.sum_nonneg h
  have hSe : 0 < fs.sum + eps := by have := eps_pos; linarith
  have hsum : (normalize_firing fs).sum = fs.sum / (fs.sum + eps) := by
    unfold normalize_firing; exact sum_map_div fs _
  refine ⟨?_, hsum, ?_, ?_, ?_⟩
  · intro y hy
    unfold normalize_firing at hy
    simp only [List.mem_map] at hy
    obtain ⟨s, hs, rfl⟩ := hy
    have hs0 : 0 ≤ s := h s hs
    have hsS : s ≤ fs.sum := List.single_le_sum h s hs
    constructor
    · exact div_nonneg hs0 (le_of_lt hSe)
    · rw [div_lt_one hSe]
      have := eps_pos
      linarith
  · rw [hsum]; exact div_nonneg hS (le_of_lt hSe)
  · rw [hsum, div_lt_one hSe]
    have := eps_pos; linarith
  · intro hpos
    rw [hsum]
    exact div_pos hpos hSe

/-- Length of a flat map whose inner lists are maps over a fixed list. -/
lemma flatMap_map_length {α β γ : Type} (l₁ : List α) (l₂ : List β) (f : α → β → γ) :
    (l₁.flatMap fun a => l₂.map (f a)).length = l₁.length * l₂.length := by
  induction l₁ with
  | nil => simp
  | cons a t ih => simp [ih, Nat.succ_mul, Nat.add_comm]

/-- Reading an append past the first list with default 0. -/
lemma getD_append_offset (l₁ l₂ : List ℚ) (n : ℕ) :
    (l₁ ++ l₂).getD (l₁.length + n) 0 = l₂.getD n 0 := by
  rw [List.getD_append_right _ _ _ _ (Nat.le_add_right _ _)]
  simp

/-- Reading a map with default 0 inside the length. -/
lemma getD_map_of_lt (l : List ℚ) (f : ℚ → ℚ) (i : ℕ) (h : i < l.length) :
    (l.map f).getD i 0 = f (l.get ⟨i, h⟩) := by
  simp [List.getD, List.getElem?_map, List.getElem?_eq_getElem h]

/-- Row-major indexing into a flat map of maps. -/
lemma flatMap_map_getD {α β : Type} (l₁ : List α) (l₂ : List β) (f : α → β → ℚ)
    (i j : ℕ) (hi : i < l₁.length) (hj : j < l₂.length) :
    (l₁.flatMap fun a => l₂.map (f a)).getD (i * l₂.length + j) 0 =
      f (l₁.get ⟨i, hi⟩) (l₂.get ⟨j, hj⟩) := by
  induction l₁ generalizing i with
  | nil => exact absurd hi (Nat.not_lt_zero i)
  | cons a t ih =>
    cases i with
    | zero =>
      simp only [List.flatMap_cons, Nat.zero_mul, Nat.zero_add]
      have hjlen : j < (l₂.map (f a)).length := by simpa using hj
      rw [List.getD_append _ _ _ _ hjlen]
      simp [List.getD, List.getElem?_map, List.getElem?_eq_getElem hj]
    | succ i' =>
      have hi' : i' < t.length := Nat.lt_of_succ_lt_succ hi
      have hidx : (i' + 1) * l₂.length + j =
          (l₂.map (f a)).length + (i' * l₂.length + j) := by
        simp [Nat.succ_mul]
        ring
      simp only [List.flatMap_cons]
      rw [hidx, getD_append_offset]
      exact ih i' hi'

/-! ## C5: membership function reference definition -/

/-- C5 counterexample: for the degenerate set a == b (here (5, 5, 10)) the
claim asserts grade 1.0 exactly at the shared point, but the source returns
0.0 there because the closed foot exclusion x <= a fires first. -/
theorem c5_degenerate_peak_counterexample :
    membership_function 5 5 5 10 = 0 ∧ membership_function 5 5 5 10 ≠ 1 ∧
    membership_function 10 0 10 10 = 0 ∧ membership_function 10 0 10 10 ≠ 1 := by
  decide

/-- C5 amended: for a ≤ b ≤ c the membership grade is 0 on the closed
exterior, follows the linear rise on (a, b] (away from a degenerate right
foot) and the linear fall on (b, c), equals 1 at x = b for a < b < c, the
denominators of the executed branches are nonzero (no division by zero, also
for degenerate sets), and at the shared point of a degenerate set the grade
is 0, not 1. -/
theorem c5_membership_reference_amended (a b c x : ℚ) (hab : a ≤ b) (hbc : b ≤ c) :
    ((x ≤ a ∨ c ≤ x) → membership_function x a b c = 0) ∧
    (a < x → x ≤ b → x < c → b - a ≠ 0 ∧ membership_function x a b c = (x - a) / (b - a)) ∧
    (a < b → b < c → membership_function b a b c = 1) ∧
    (b < x → x < c → c - b ≠ 0 ∧ membership_function x a b c = (c - x) / (c - b)) ∧
    (a = b → membership_function b a b c = 0) ∧
    (b = c → membership_function b a b c = 0) := by
  refine ⟨?_, ?_, ?_, ?_, ?_, ?_⟩
  · intro h
    unfold membership_function
    rw [if_pos h]
  · intro h1 h2 h3
    have hba : a < b := lt_of_lt_of_le h1 h2
    refine ⟨sub_ne_zero.mpr (ne_of_gt hba), ?_⟩
    unfold membership_function
    rw [if_neg (by push_neg; exact ⟨h1, h3⟩), if_pos ⟨h1, h2⟩]
  · intro h1 h2
    unfold membership_function
    rw [if_neg (by push_neg; exact ⟨h1, h2⟩), if_pos ⟨h1, le_refl b⟩]
    exact div_self (sub_ne_zero.mpr (ne_of_gt h1))
  · intro h1 h2
    have hbc' : b < c := lt_trans h1 h2
    refine ⟨sub_ne_zero.mpr (ne_of_gt hbc'), ?_⟩
    have hax : a < x := lt_of_le_of_lt hab h1
    unfold membership_function
    rw [if_neg (by push_neg; exact ⟨hax, h2⟩), if_neg (by push_neg; exact fun _ => h1)]
  · intro h
    subst h
    unfold membership_function
    rw [if_pos (Or.inl (le_refl a))]
  · intro h
    subst h
    unfold membership_function
    rw [if_pos (Or.inr (le_refl b))]

/-- C5 witness: the amended theorem applied at the non-degenerate set
(-50, 0, 50) and x = 25 on the falling side. -/
theorem c5_membership_witness :
    membership_function 25 (-50) 0 50 = (50 - 25) / (50 - 0) :=
  ((c5_membership_reference_amended (-50) 0 50 25 (by norm_num) (by norm_num)).2.2.2.1
    (by norm_num) (by norm_num)).2

/-! ## C6: normalized firing strengths -/

/-- C6 counterexample: with one fully firing rule the sum of the normalized
strengths is 1 / (1 + 1e-10), strictly less than 1, so the claimed value of
exactly 1 when a rule fires is false. -/
theorem c6_normalization_counterexample :
    0 < (calculate_rule_firing_strengths 1 [⟨-1, 0, 1⟩] [⟨-1, 0, 1⟩] 0 0).sum ∧
    (normalize_firing (calculate_rule_firing_strengths 1 [⟨-1, 0, 1⟩] [⟨-1, 0, 1⟩] 0 0)).sum
      ≠ 1 := by
  constructor <;>
    norm_num [calculate_rule_firing_strengths, normalize_firing, memGrade,
      membership_function, eps, List.range_succ]

/-- C6 amended: every normalized firing strength lies in [0, 1) (hence in
[0, 1]), their sum is nonnegative and strictly below 1, and the sum is
positive whenever at least one rule fires with nonzero strength; exact
equality with 1 never holds because of the fixed epsilon in the
denominator. -/
theorem c6_normalized_strengths_amended (m : ℕ) (er dr : List TriMF) (e de : ℚ) :
    (∀ y ∈ normalize_firing (calculate_rule_firing_strengths m er dr e de), 0 ≤ y ∧ y < 1) ∧
    0 ≤ (normalize_firing (calculate_rule_firing_strengths m er dr e de)).sum ∧
    (normalize_firing (calculate_rule_firing_strengths m er dr e de)).sum < 1 ∧
    (0 < (calculate_rule_firing_strengths m er dr e de).sum →
      0 < (normalize_firing (calculate_rule_firing_strengths m er dr e de)).sum) := by
  have h := normalize_firing_bounds (calculate_rule_firing_strengths m er dr e de)
    (fun y hy => (firing_strength_mem_bounds m er dr e de y hy).1)
  exact ⟨h.1, h.2.2.1, h.2.2.2.1, h.2.2.2.2⟩

/-- C6 witness: the amended theorem applied to the three-set example
configuration at error = 0, delta_error = 0, where the middle rule fires. -/
theorem c6_normalized_strengths_witness :
    0 < (normalize_firing (calculate_rule_firing_strengths 3 ranges3 ranges3 0 0)).sum :=
  (c6_normalized_strengths_amended 3 ranges3 ranges3 0 0).2.2.2
    (by norm_num [calculate_rule_firing_strengths, memGrade, membership_function,
      ranges3, List.range_succ])

/-! ## C7: control output bounded, failure path returns 0 -/

/-- The fuzzy pipeline output is always within the clamp range. -/
lemma calculate_control_at_bounds (cfg : AnfisConfig) (cons : List ConsequentRow)
    (e de : ℚ) :
    -100 ≤ calculate_control_at cfg cons e de ∧ calculate_control_at cfg cons e de ≤ 100 := by
  unfold calculate_control_at
  split_ifs with h
  · exact ⟨lo_le_np_clip _ _ _ (by norm_num), np_clip_le_hi _ _ _⟩
  · norm_num

/-- The except path of calculate_control returns 0. -/
lemma calculate_control_at_fail (cfg : AnfisConfig) (cons : List ConsequentRow)
    (e de : ℚ) (h : shapes_ok cfg cons = false) :
    calculate_control_at cfg cons e de = 0 := by
  unfold calculate_control_at
  rw [if_neg]
  simp [h]

/-- C7: for every configuration, controller state and error input, the value
calculate_control returns lies within [-100, 100]; the clamp is the final
step of the successful path, and the internal-failure path returns exactly
0. -/
theorem c7_control_output_bounded (cfg : AnfisConfig) (st : AnfisState) (e : ℚ) :
    -100 ≤ (calculate_control cfg st e).1 ∧ (calculate_control cfg st e).1 ≤ 100 ∧
    (shapes_ok cfg st.consequent_params = false → (calculate_control cfg st e).1 = 0) :=
  ⟨(calculate_control_at_bounds cfg st.consequent_params e
      ((e - st.last_error.getD e) / (1 / 100))).1,
   (calculate_control_at_bounds cfg st.consequent_params e
      ((e - st.last_error.getD e) / (1 / 100))).2,
   fun h => calculate_control_at_fail cfg st.consequent_params e
      ((e - st.last_error.getD e) / (1 / 100)) h⟩

/-- C7 witness: the bounded-error path applied to a state whose consequent
matrix has the wrong shape: the call returns exactly 0. -/
theorem c7_control_output_witness : (calculate_control cfgA stBad 10).1 = 0 :=
  (c7_control_output_bounded cfgA stBad 10).2.2 (by decide)

/-! ## C8: rule count and canonical rule order -/

/-- C8: for a valid configuration (both range lists of length num_mf) the
rule engine produces num_mf ^ 2 firing strengths (two inputs), and the
strength at row-major position i * num_mf + j is the minimum of the error
grade i and the delta-error grade j. -/
theorem c8_rule_grid (m : ℕ) (er dr : List TriMF) (e de : ℚ)
    (her : er.length = m) (hdr : dr.length = m) (i j : ℕ) (hi : i < m) (hj : j < m) :
    (calculate_rule_firing_strengths m er dr e de).length = m ^ 2 ∧
    (calculate_rule_firing_strengths m er dr e de).getD (i * m + j) 0 =
      min ((er.map (memGrade e)).getD i 0) ((dr.map (memGrade de)).getD j 0) := by
  constructor
  · unfold calculate_rule_firing_strengths
    rw [flatMap_map_length]
    simp [List.length_range, pow_two]
  · unfold calculate_rule_firing_strengths
    have h := flatMap_map_getD (List.range m) (List.range m)
      (fun i j => min ((er.map (memGrade e)).getD i 0) ((dr.map (memGrade de)).getD j 0))
      i j (by simpa using hi) (by simpa using hj)
    simpa [List.length_range, List.get_range] using h

/-- C8 witness: the instantiated grid theorem on the three-set example
configuration at rule position (1, 2). -/
theorem c8_rule_grid_witness :
    (calculate_rule_firing_strengths 3 ranges3 ranges3 0 0).length = 3 ^ 2 ∧
    (calculate_rule_firing_strengths 3 ranges3 ranges3 0 0).getD (1 * 3 + 2) 0 =
      min ((ranges3.map (memGrade 0)).getD 1 0) ((ranges3.map (memGrade 0)).getD 2 0) :=
  c8_rule_grid 3 ranges3 ranges3 0 0 (by decide) (by decide) 1 2 (by decide) (by decide)

/-! ## C1: safety gate on the scheduler tick -/

/-- C1: the code violates the claimed safety gate.  From a Running
adaptive-mode system, the hardware-level emergency stop (the external
stop-signal path) latches the EmergencyStopped state, yet the very next
scheduler tick writes the nonzero controller output to the duty-cycle sink:
MainController._control_loop contains no safety-state check, so the duty
cycle is not forced to 0. -/
theorem c1_missing_safety_gate :
    s_run.hw_running = true ∧ s_run.emergency_stop_active = false ∧
    s_es.emergency_stop_active = true ∧ s_es.hw_running = false ∧
    (control_tick cfgA s_es).duty_cycle ≠ 0 := by
  refine ⟨rfl, rfl, rfl, rfl, ?_⟩
  norm_num [control_tick, s_es, s_run, sysInit, mc_start, hw_start, mc_set_control_mode,
    mc_set_target_speed, hw_emergency_stop, hw_set_duty_cycle, calculate_control,
    calculate_control_at, shapes_ok, cfgA, anfisA, calculate_rule_firing_strengths,
    normalize_firing, rule_outputs, memGrade, membership_function, eps, np_clip,
    List.range_succ]

/-! ## C2: the emergency-stop latch -/

/-- C2 counterexample: start() clears the emergency-stop latch.  From the
latched state produced by an emergency stop, the start operation (which is
not resetEmergencyStop) leaves the flag cleared, because
HardwareController.start unconditionally assigns emergency_stop_active =
False. -/
theorem c2_start_clears_estop_counterexample :
    estopStateC.emergency_stop_active = true ∧
    (step cfgA hcfg0 simParamsDefault Op.start estopStateC).emergency_stop_active = false := by
  exact ⟨rfl, rfl⟩

/-- A control-loop tick never touches the emergency-stop flag. -/
lemma control_tick_estop (acfg : AnfisConfig) (s : SysState) :
    (control_tick acfg s).emergency_stop_active = s.emergency_stop_active := by
  unfold control_tick
  split_ifs with h
  · cases hm : s.control_mode <;> simp [hm, hw_set_duty_cycle]
  · rfl

/-- A monitoring tick never touches the emergency-stop flag. -/
lemma monitor_tick_estop (p : SimParams) (s : SysState) (dt noise cnoise : ℚ) :
    (monitor_tick p s dt noise cnoise).emergency_stop_active = s.emergency_stop_active := by
  unfold monitor_tick
  split_ifs with h <;> rfl

/-- C2 amended: the EmergencyStopped latch survives every control-path
operation except resetEmergencyStop and start; the unconditional clearing
inside start is the one extra escape the source adds to the claimed
latch. -/
theorem c2_estop_latched_amended (acfg : AnfisConfig) (hcfg : HwConfig) (p : SimParams)
    (op : Op) (s : SysState) (hs : s.emergency_stop_active = true)
    (h1 : op ≠ Op.start) (h2 : op ≠ Op.resetEmergencyStop) :
    (step acfg hcfg p op s).emergency_stop_active = true := by
  cases op with
  | start => exact absurd rfl h1
  | stop => simpa [step, mc_stop, hw_stop, hw_set_duty_cycle] using hs
  | emergencyStop =>
    simp [step, mc_emergency_stop, mc_stop, hw_stop, hw_emergency_stop, hw_set_duty_cycle]
  | resetEmergencyStop => exact absurd rfl h2
  | hwEmergencyStop => simp [step, hw_emergency_stop, hw_set_duty_cycle]
  | setTargetSpeed v => simpa [step, mc_set_target_speed] using hs
  | hwSetTargetSpeed v => simpa [step, hw_set_target_speed] using hs
  | setDutyCycle v => simpa [step, hw_set_duty_cycle] using hs
  | setControlMode m => simpa [step, mc_set_control_mode] using hs
  | controlTick => simpa [step, control_tick_estop] using hs
  | monitorTick dt noise cnoise => simpa [step, monitor_tick_estop] using hs

/-- C2 witness: the latch theorem applied to the stop operation on a
latched state. -/
theorem c2_estop_latched_witness :
    (step cfgA hcfg0 simParamsDefault Op.stop estopStateC).emergency_stop_active = true :=
  c2_estop_latched_amended cfgA hcfg0 simParamsDefault Op.stop estopStateC rfl
    (by decide) (by decide)

/-! ## C3: training must change the consequent matrix -/

/-- The per-sample fold of train never writes the consequent matrix. -/
lemma foldl_train_consequents (cfg : AnfisConfig) (data : List Sample) :
    ∀ p : ℚ × AnfisState,
      ((data.foldl (fun p s =>
        let r := calculate_control cfg p.2 s.error
        (p.1 + (s.target - r.1) ^ 2, r.2)) p).2).consequent_params = p.2.consequent_params := by
  induction data with
  | nil => intro p; rfl
  | cons s t ih =>
    intro p
    rw [List.foldl_cons]
    exact (ih _).trans rfl

/-- One epoch of train never writes the consequent matrix. -/
lemma train_epoch_consequents (cfg : AnfisConfig) (st : AnfisState) (data : List Sample) :
    ((train_epoch cfg st data).2).consequent_params = st.consequent_params :=
  foldl_train_consequents cfg data ((0 : ℚ), st)

/-- The epoch loop never writes the consequent matrix. -/
lemma train_go_consequents (cfg : AnfisConfig) (goal : ℚ) (data : List Sample) :
    ∀ (n : ℕ) (st : AnfisState) (count : ℕ) (lastE : ℚ),
      ((train_go cfg goal data n st count lastE).state).consequent_params =
        st.consequent_params := by
  intro n
  induction n with
  | zero => intro st count lastE; rfl
  | succ n ih =>
    intro st count lastE
    simp only [train_go]
    split_ifs with h
    · exact train_epoch_consequents cfg st data
    · exact (ih _ _ _).trans (train_epoch_consequents cfg st data)

/-- C3: training is a no-op on the parameter store.  For every
configuration, initial state and training set (in particular every
non-empty set with at least one epoch) the consequent matrix after train
equals the consequent matrix before train, contradicting the required
observable parameter update; the update step of the source is an empty
placeholder. -/
theorem c3_train_never_updates_consequents (cfg : AnfisConfig) (st : AnfisState)
    (data : List Sample) :
    ((train cfg st data).state).consequent_params = st.consequent_params :=
  train_go_consequents cfg cfg.error_goal data cfg.training_epochs st 0 0

/-! ## C4: simulated speed bounds -/

/-- C4 counterexample: after start, set_duty_cycle(100) and one monitoring
tick with dt = 10 and a speed-noise sample of +1, the integrated speed is
clipped to max_speed = 1750 and the noise is then added with only a lower
floor, leaving the speed at 1751 > max_speed. -/
theorem c4_speed_exceeds_max_counterexample :
    c4state.current_speed = 1751 ∧
    simParamsDefault.max_speed < c4state.current_speed := by
  constructor <;>
    norm_num [c4state, step, mc_start, hw_start, hw_set_duty_cycle, monitor_tick,
      update_simulation, np_clip, sysInit, simParamsDefault, anfisA, hcfg0]

/-- The floor-after-noise pattern of the speed update: nonnegative, and
bounded by the clamp ceiling plus the positive part of the noise. -/
lemma floor_noise_bound (x noise maxS : ℚ) (h : 0 ≤ maxS) :
    0 ≤ max 0 (np_clip x 0 maxS + noise) ∧
    max 0 (np_clip x 0 maxS + noise) ≤ maxS + max 0 noise := by
  constructor
  · exact le_max_left _ _
  · apply max_le
    · have h2 := le_max_left (0 : ℚ) noise
      linarith
    · have h1 := np_clip_le_hi x 0 maxS
      have h2 := le_max_right (0 : ℚ) noise
      linarith

/-- C4 amended: within one update the speed is integrated, clamped to
[0, maxSpeed], perturbed by the noise sample, then floored at 0; the
resulting speed is always nonnegative and never exceeds maxSpeed plus the
positive part of the noise sample (it can exceed maxSpeed itself, since
no upper clamp follows the perturbation). -/
theorem c4_speed_bounds_amended (p : SimParams) (speed duty dt noise cnoise : ℚ)
    (hmax : 0 ≤ p.max_speed) :
    0 ≤ (update_simulation p speed duty dt noise cnoise).1 ∧
    (update_simulation p speed duty dt noise cnoise).1 ≤ p.max_speed + max 0 noise :=
  ⟨(floor_noise_bound (speed + (duty / 100 * p.motor_torque_constant * p.max_speed -
      p.motor_damping * speed - p.load_torque) / p.motor_inertia * dt) noise
      p.max_speed hmax).1,
   (floor_noise_bound (speed + (duty / 100 * p.motor_torque_constant * p.max_speed -
      p.motor_damping * speed - p.load_torque) / p.motor_inertia * dt) noise
      p.max_speed hmax).2⟩

/-- C4 witness: the amended bounds applied to the default simulation
parameters with duty 100, dt 10 and noise sample +1. -/
theorem c4_speed_bounds_witness :
    0 ≤ (update_simulation simParamsDefault 0 100 10 1 0).1 ∧
    (update_simulation simParamsDefault 0 100 10 1 0).1 ≤
      simParamsDefault.max_speed + max 0 1 :=
  c4_speed_bounds_amended simParamsDefault 0 100 10 1 0
    (by norm_num [simParamsDefault])

/-! ## C9: training loop semantics -/

/-- C9 counterexample: the forward pass of train ignores the delta_error
field of the samples.  On the one-sample set data9 the epoch error computed
by the source (which derives delta_error from last_error, here 0) differs
from the epoch error computed for the (error, delta_error) pair stored in
the sample. -/
theorem c9_sample_delta_ignored_counterexample :
    (train_epoch cfg9 st9 data9).1 ≠ train_epoch_samplePair cfg9 st9.consequent_params data9 := by
  norm_num [train_epoch, train_epoch_samplePair, calculate_control, calculate_control_at,
    shapes_ok, calculate_rule_firing_strengths, normalize_firing, rule_outputs, memGrade,
    membership_function, np_clip, eps, cfg9, st9, data9, List.range_succ]

/-- C9 amended: train accumulates the squared differences between targets
and the outputs of calculate_control on the sample errors (the delta_error
a sample stores is ignored; the controller derives its own), reports the
per-epoch mean squared error, and stops early when it falls below the
error goal: if the first-epoch mean squared error is below the goal, the
run reports exactly one epoch and convergence, with that error as the
final error. -/
theorem c9_early_stop_amended (cfg : AnfisConfig) (st : AnfisState) (data : List Sample)
    (hn : 0 < cfg.training_epochs)
    (hg : (train_epoch cfg st data).1 < cfg.error_goal) :
    (train cfg st data).epochsRun = 1 ∧ (train cfg st data).converged = true ∧
    (train cfg st data).finalError = (train_epoch cfg st data).1 := by
  rcases Nat.exists_eq_succ_of_ne_zero (Nat.pos_iff_ne_zero.mp hn) with ⟨n, hn2⟩
  unfold train
  rw [hn2]
  simp only [train_go]
  rw [if_pos hg]
  exact ⟨rfl, rfl, rfl⟩

/-- C9 witness: the early-stop theorem applied to cfg9 / st9 / data9, whose
first-epoch mean squared error (0) is below the error goal (1). -/
theorem c9_early_stop_witness :
    (train cfg9 st9 data9).epochsRun = 1 ∧ (train cfg9 st9 data9).converged = true ∧
    (train cfg9 st9 data9).finalError = (train_epoch cfg9 st9 data9).1 :=
  c9_early_stop_amended cfg9 st9 data9 (by norm_num [cfg9])
    (by norm_num [train_epoch, calculate_control, calculate_control_at, shapes_ok,
      calculate_rule_firing_strengths, normalize_firing, rule_outputs, memGrade,
      membership_function, np_clip, eps, cfg9, st9, data9, List.range_succ])

/-! ## C10: target speed stored clamped -/

/-- C10: set_target_speed stores the argument clamped to the configured
[min_speed_rpm, max_speed_rpm] range, so for a well-formed range the
stored target speed always lies within the configured motor speed
bounds. -/
theorem c10_target_speed_clamped (hcfg : HwConfig) (s : SysState) (v : ℚ)
    (h : hcfg.min_speed_rpm ≤ hcfg.max_speed_rpm) :
    (hw_set_target_speed hcfg s v).hw_target_speed =
      np_clip v hcfg.min_speed_rpm hcfg.max_speed_rpm ∧
    hcfg.min_speed_rpm ≤ (hw_set_target_speed hcfg s v).hw_target_speed ∧
    (hw_set_target_speed hcfg s v).hw_target_speed ≤ hcfg.max_speed_rpm :=
  ⟨rfl, lo_le_np_clip v _ _ h, np_clip_le_hi v _ _⟩

/-- C10 witness: a request of 5000 RPM against the [0, 1750] configuration
is stored inside the bounds. -/
theorem c10_target_speed_witness :
    hcfg0.min_speed_rpm ≤ (hw_set_target_speed hcfg0 sysInit 5000).hw_target_speed ∧
    (hw_set_target_speed hcfg0 sysInit 5000).hw_target_speed ≤ hcfg0.max_speed_rpm :=
  ⟨(c10_target_speed_clamped hcfg0 sysInit 5000 (by norm_num [hcfg0])).2.1,
   (c10_target_speed_clamped hcfg0 sysInit 5000 (by norm_num [hcfg0])).2.2⟩

end DCMotor
